import Mathlib

/-!
Verification of the Hindley-Milner type inference engine in
`src/src/type_checker/type_.rs` (the `steiner` repository).

The Rust code is shallowly embedded: the `Type` enum becomes the inductive
`Ty` (the name `Type` is reserved in Lean; the `VarName { name, kind }`
struct is flattened into `(String × Ty)` pairs), `im::HashMap` substitutions
and `std::HashMap` environments become association lists with the same
observable operations (first-match lookup, insert-replaces `update`,
self-biased `union`, `intersection`), and `im::HashSet<VarName>` becomes a
duplicate-free list.  Stateful methods on `TypeContext` thread the context
explicitly.  The mutually recursive solver functions (`unify`,
`match_types`, `unify_many`, `bind_type_variable`, `get_kind`,
`constrain_type_application`, `solve_constraints`) are not structurally
recursive, so they take a fuel parameter and return `Res.fuelOut` when it
runs out; `Res.panicked` models the Rust `panic!` branch of `get_kind`.
-/

namespace Steiner

/-- Mirrors `enum Type` of `type_.rs` lines 27-39.  `VarName` fields are
inlined as `(name, kind)` pairs; `Scheme`'s quantifier list keeps the
`Vec<VarName>` order. -/
inductive Ty where
  | Constructor (name : String) (kind : Ty)
  | TApply (f : Ty) (x : Ty)
  | Variable (name : String) (kind : Ty)
  | NoKind
  | ArrowKind
  | Scheme (vars : List (String × Ty)) (ty : Ty)

mutual
def Ty.decEq : (a b : Ty) → Decidable (a = b)
  | .Constructor n k, .Constructor n' k' =>
    match String.decEq n n', Ty.decEq k k' with
    | isTrue h1, isTrue h2 => isTrue (by rw [h1, h2])
    | isFalse h, _ => isFalse (fun e => by cases e; exact h rfl)
    | _, isFalse h => isFalse (fun e => by cases e; exact h rfl)
  | .TApply f x, .TApply f' x' =>
    match Ty.decEq f f', Ty.decEq x x' with
    | isTrue h1, isTrue h2 => isTrue (by rw [h1, h2])
    | isFalse h, _ => isFalse (fun e => by cases e; exact h rfl)
    | _, isFalse h => isFalse (fun e => by cases e; exact h rfl)
  | .Variable n k, .Variable n' k' =>
    match String.decEq n n', Ty.decEq k k' with
    | isTrue h1, isTrue h2 => isTrue (by rw [h1, h2])
    | isFalse h, _ => isFalse (fun e => by cases e; exact h rfl)
    | _, isFalse h => isFalse (fun e => by cases e; exact h rfl)
  | .NoKind, .NoKind => isTrue rfl
  | .ArrowKind, .ArrowKind => isTrue rfl
  | .Scheme vs t, .Scheme vs' t' =>
    match Ty.decEqVars vs vs', Ty.decEq t t' with
    | isTrue h1, isTrue h2 => isTrue (by rw [h1, h2])
    | isFalse h, _ => isFalse (fun e => by cases e; exact h rfl)
    | _, isFalse h => isFalse (fun e => by cases e; exact h rfl)
  | .Constructor _ _, .TApply _ _ => isFalse (fun e => by cases e)
  | .Constructor _ _, .Variable _ _ => isFalse (fun e => by cases e)
  | .Constructor _ _, .NoKind => isFalse (fun e => by cases e)
  | .Constructor _ _, .ArrowKind => isFalse (fun e => by cases e)
  | .Constructor _ _, .Scheme _ _ => isFalse (fun e => by cases e)
  | .TApply _ _, .Constructor _ _ => isFalse (fun e => by cases e)
  | .TApply _ _, .Variable _ _ => isFalse (fun e => by cases e)
  | .TApply _ _, .NoKind => isFalse (fun e => by cases e)
  | .TApply _ _, .ArrowKind => isFalse (fun e => by cases e)
  | .TApply _ _, .Scheme _ _ => isFalse (fun e => by cases e)
  | .Variable _ _, .Constructor _ _ => isFalse (fun e => by cases e)
  | .Variable _ _, .TApply _ _ => isFalse (fun e => by cases e)
  | .Variable _ _, .NoKind => isFalse (fun e => by cases e)
  | .Variable _ _, .ArrowKind => isFalse (fun e => by cases e)
  | .Variable _ _, .Scheme _ _ => isFalse (fun e => by cases e)
  | .NoKind, .Constructor _ _ => isFalse (fun e => by cases e)
  | .NoKind, .TApply _ _ => isFalse (fun e => by cases e)
  | .NoKind, .Variable _ _ => isFalse (fun e => by cases e)
  | .NoKind, .ArrowKind => isFalse (fun e => by cases e)
  | .NoKind, .Scheme _ _ => isFalse (fun e => by cases e)
  | .ArrowKind, .Constructor _ _ => isFalse (fun e => by cases e)
  | .ArrowKind, .TApply _ _ => isFalse (fun e => by cases e)
  | .ArrowKind, .Variable _ _ => isFalse (fun e => by cases e)
  | .ArrowKind, .NoKind => isFalse (fun e => by cases e)
  | .ArrowKind, .Scheme _ _ => isFalse (fun e => by cases e)
  | .Scheme _ _, .Constructor _ _ => isFalse (fun e => by cases e)
  | .Scheme _ _, .TApply _ _ => isFalse (fun e => by cases e)
  | .Scheme _ _, .Variable _ _ => isFalse (fun e => by cases e)
  | .Scheme _ _, .NoKind => isFalse (fun e => by cases e)
  | .Scheme _ _, .ArrowKind => isFalse (fun e => by cases e)

def Ty.decEqVars : (l l' : List (String × Ty)) → Decidable (l = l')
  | [], [] => isTrue rfl
  | (n, k) :: r, (n', k') :: r' =>
    match String.decEq n n', Ty.decEq k k', Ty.decEqVars r r' with
    | isTrue h1, isTrue h2, isTrue h3 => isTrue (by rw [h1, h2, h3])
    | isFalse h, _, _ => isFalse (fun e => by cases e; exact h rfl)
    | _, isFalse h, _ => isFalse (fun e => by cases e; exact h rfl)
    | _, _, isFalse h => isFalse (fun e => by cases e; exact h rfl)
  | [], _ :: _ => isFalse (fun e => by cases e)
  | _ :: _, [] => isFalse (fun e => by cases e)
end

instance : DecidableEq Ty := Ty.decEq

/-- `Type::star()`: the `*` constructor whose own kind is `NoKind`. -/
def Ty.star : Ty := Ty.Constructor "*" Ty.NoKind

/-- `Type::apply`: build a type application node. -/
def Ty.apply (t other : Ty) : Ty := Ty.TApply t other

/-- `Type::from_string`: a variable of the given name with kind `NoKind`. -/
def Ty.from_string (name : String) : Ty := Ty.Variable name Ty.NoKind

/-- `Type::to_scheme`. -/
def Ty.to_scheme (t : Ty) (vs : List (String × Ty)) : Ty := Ty.Scheme vs t

/-- `Type::create_lambda`: a function type `from -> to`, encoded as
`TApply(TApply(ArrowKind, from), to)`. -/
def Ty.create_lambda (from_ to_ : Ty) : Ty :=
  (Ty.ArrowKind.apply from_).apply to_

/-- `Type::constant`: a constructor of kind `*`. -/
def Ty.constant (name : String) : Ty := Ty.Constructor name Ty.star

def Ty.number : Ty := Ty.constant "Number"

def Ty.string : Ty := Ty.constant "String"

def Ty.boolean : Ty := Ty.constant "Boolean"

/-- `Type::is_scheme`. -/
def Ty.is_scheme : Ty → Bool
  | .Scheme _ _ => true
  | _ => false

/-- `im::HashSet<VarName>` union (a set has no duplicate elements). -/
def vunion (l1 l2 : List (String × Ty)) : List (String × Ty) :=
  l1 ++ l2.filter (fun v => !(l1.contains v))

/-- `Substituable::free_variables` for `Type` (lines 773-787): variables of a
`Scheme` body shadowed by a quantifier (matched by name) are dropped;
`Constructor`, `ArrowKind`, `NoKind` contribute nothing. -/
def Ty.free_variables : Ty → List (String × Ty)
  | .Variable n k => [(n, k)]
  | .TApply f x => vunion f.free_variables x.free_variables
  | .Scheme vs t =>
    let quantifier_names := vs.map Prod.fst
    t.free_variables.filter (fun v => !(quantifier_names.contains v.1))
  | _ => []

/-- `Type::is_recursive`: the given name occurs among the free variables. -/
def Ty.is_recursive (t : Ty) (variable_ : String) : Bool :=
  (t.free_variables.find? (fun nk => nk.1 == variable_)).isSome

/-- `type Substitution = im::HashMap<String, Type>` as an association list. -/
abbrev Substitution := List (String × Ty)

/-- `type TypeEnv = HashMap<String, Type>` as an association list. -/
abbrev TypeEnv := List (String × Ty)

/-- HashMap `get` / `contains_key`: first-match association lookup. -/
def alookup : List (String × Ty) → String → Option Ty
  | [], _ => none
  | (k, v) :: rest, key => if k = key then some v else alookup rest key

/-- `im::HashMap::update`: insert the key, replacing any previous binding. -/
def supdate (s : Substitution) (k : String) (v : Ty) : Substitution :=
  (k, v) :: s.filter (fun kv => !(kv.1 == k))

/-- `im::HashMap::union`: on a key present in both maps the value of the
first (self) map is kept. -/
def sunion (s1 s2 : Substitution) : Substitution :=
  s1 ++ s2.filter (fun kv => (alookup s1 kv.1).isNone)

/-- `im::HashMap::intersection` (only its key set is used by the code). -/
def sintersection (s1 s2 : Substitution) : Substitution :=
  s1.filter (fun kv => (alookup s2 kv.1).isSome)

/-- `Substituable::apply_substitution` for `Type` (lines 789-800): a variable
is replaced by its binding if present (the stored kind is not rewritten),
`TApply` recurses, everything else — including `Scheme` — is unchanged. -/
def Ty.apply_substitution : Ty → Substitution → Ty
  | .Variable n k, s =>
    match alookup s n with
    | some new_type => new_type
    | none => .Variable n k
  | .TApply f x, s => .TApply (f.apply_substitution s) (x.apply_substitution s)
  | t, _ => t

/-- `Substituable::apply_substitution` for `Substitution`: map over values. -/
def Substitution.apply_substitution (s σ : Substitution) : Substitution :=
  s.map (fun kv => (kv.1, kv.2.apply_substitution σ))

/-- `enum TypeError` (lines 199-208). -/
inductive TypeError where
  | UnificationError (t1 t2 : Ty)
  | MatchingError (t1 t2 : Ty)
  | SubstitutionConflict (key : String) (t1 t2 : Ty)
  | NotInScope (name : String)
  | RecursiveType (name : String) (ty : Ty)
  | DifferentLengths (tys1 tys2 : List Ty)
  deriving DecidableEq

/-- `enum TypeConstraint` (lines 240-244). -/
inductive TypeConstraint where
  | Match (l r : Ty)
  | Unify (l r : Ty)
  deriving DecidableEq

def TypeConstraint.apply_substitution (c : TypeConstraint) (σ : Substitution) : TypeConstraint :=
  match c with
  | .Match l r => .Match (l.apply_substitution σ) (r.apply_substitution σ)
  | .Unify l r => .Unify (l.apply_substitution σ) (r.apply_substitution σ)

def TypeEnv.apply_substitution (env : TypeEnv) (σ : Substitution) : TypeEnv :=
  env.map (fun kv => (kv.1, kv.2.apply_substitution σ))

/-- `struct TypeContext` (lines 250-255). -/
structure TypeContext where
  environment : TypeEnv
  constraints : List TypeConstraint
  next_id : Nat
  deriving DecidableEq

/-- `TypeContext::new`: the initial environment maps `Type` to `*`. -/
def TypeContext.new : TypeContext :=
  { environment := [("Type", Ty.star)], constraints := [], next_id := 0 }

/-- `TypeContext::should_unify`: push a `Unify` constraint. -/
def should_unify (from_ to_ : Ty) (ctx : TypeContext) : TypeContext :=
  { ctx with constraints := ctx.constraints ++ [TypeConstraint.Unify from_ to_] }

/-- `TypeContext::should_match`: push a `Match` constraint. -/
def should_match (from_ to_ : Ty) (ctx : TypeContext) : TypeContext :=
  { ctx with constraints := ctx.constraints ++ [TypeConstraint.Match from_ to_] }

/-- `TypeContext::get_id`. -/
def get_id (ctx : TypeContext) : Nat × TypeContext :=
  (ctx.next_id, { ctx with next_id := ctx.next_id + 1 })

/-- `TypeContext::fresh`: a variable named `t{id}` with the requested kind. -/
def fresh (kind : Ty) (ctx : TypeContext) : Ty × TypeContext :=
  let (id, ctx') := get_id ctx
  (Ty.Variable ("t" ++ toString id) kind, ctx')

/-- `TypeContext::instantiate`: replace a scheme's quantifiers by fresh
variables carrying the quantifier's stored kind; collecting the pairs into
an `im::HashMap` lets a later duplicate quantifier name win. -/
def instantiate (ty : Ty) (ctx : TypeContext) : Ty × TypeContext :=
  match ty with
  | .Scheme vs t =>
    let (pairs, ctx') := vs.foldl
      (fun (acc : List (String × Ty) × TypeContext) v =>
        let (fv, c') := fresh v.2 acc.2
        (acc.1 ++ [(v.1, fv)], c'))
      ([], ctx)
    let substitution := pairs.foldl (fun (m : Substitution) kv => supdate m kv.1 kv.2) []
    (t.apply_substitution substitution, ctx')
  | other => (other, ctx)

/-- `Type::generalize`: quantify over the free variables whose name is not a
key of the context's environment. -/
def Ty.generalize (t : Ty) (context : TypeContext) : Ty :=
  let quantifiers := t.free_variables.filter
    (fun v => (alookup context.environment v.1).isNone)
  t.to_scheme quantifiers

/-- `TypeContext::create_closure`. -/
def create_closure (name : String) (scheme : Ty) (ctx : TypeContext) : TypeContext :=
  { ctx with environment := (name, scheme) :: ctx.environment.filter (fun kv => !(kv.1 == name)) }

/-- `TypeContext::sync`: append the child's constraints, take the max id. -/
def sync (self other : TypeContext) : TypeContext :=
  { self with
      constraints := self.constraints ++ other.constraints,
      next_id := max other.next_id self.next_id }

/-- `TypeContext::with_substitution`: rewrite the environment. -/
def with_substitution (ctx : TypeContext) (substitution : Substitution) : TypeContext :=
  { ctx with environment := TypeEnv.apply_substitution ctx.environment substitution }

/-- `merge_substitutions` (line 666-668):
`subst2.apply_substitution(&subst1).union(subst1)`. -/
def merge_substitutions (subst1 subst2 : Substitution) : Substitution :=
  sunion (Substitution.apply_substitution subst2 subst1) subst1

/-- `safe_merge_substitution` (lines 671-681): scan the keys shared by both
maps; on the first key whose normalised bindings differ report
`SubstitutionConflict`, otherwise return the (left-biased) union. -/
def safe_merge_substitution (subst1 subst2 : Substitution) : Except TypeError Substitution :=
  let keys := (sintersection subst1 subst2).map Prod.fst
  match keys.find? (fun key =>
      !((Ty.from_string key).apply_substitution subst1
          == (Ty.from_string key).apply_substitution subst2)) with
  | some key =>
    .error (TypeError.SubstitutionConflict key
      ((Ty.from_string key).apply_substitution subst1)
      ((Ty.from_string key).apply_substitution subst2))
  | none => .ok (sunion subst1 subst2)

/-- `TypeContext::kind_unkinded` is the identity (lines 629-631). -/
def kind_unkinded (ty : Ty) : Ty := ty

/-- Result of an embedded stateful computation.  `err` is a Rust
`Err(TypeError)`, `fuelOut` means the fuel ran out, and `panicked` models
the `panic!` branch of `get_kind`. -/
inductive Res (α : Type) where
  | ok (a : α)
  | err (e : TypeError)
  | fuelOut
  | panicked
  deriving DecidableEq

def Res.bind : Res α → (α → Res β) → Res β
  | .ok a, f => f a
  | .err e, _ => .err e
  | .fuelOut, _ => .fuelOut
  | .panicked, _ => .panicked

/-!
The eight mutually recursive solver functions are embedded as the `Nat.rec`
fixpoint of a step functional: `SolverFns` packages one candidate
implementation of each function, `solverStep prev` is one unfolding of every
Rust body where each recursive call goes through `prev` (that is, runs at
one unit less fuel), and `solver fuel` iterates the step `fuel` times from
the all-`fuelOut` bottom.  `unify fuel`, `match_types fuel`, ... project the
corresponding field; this gives the kernel plain iota reduction instead of
the course-of-values recursor.
-/

structure SolverFns where
  unify : Ty → Ty → TypeContext → Res (Substitution × TypeContext)
  match_types : Ty → Ty → TypeContext → Res (Substitution × TypeContext)
  unify_many : List Ty → List Ty → TypeContext → Res (Substitution × TypeContext)
  bind_type_variable : String → Option Ty → Ty → TypeContext → Res (Substitution × TypeContext)
  get_kind : Ty → TypeContext → Res (Ty × TypeContext)
  constrain_type_application : Ty → Ty → TypeContext → Res ((Ty × Ty) × TypeContext)
  solve_constraints_with_subst : List TypeConstraint → Substitution → TypeContext → Res (Substitution × TypeContext)
  solve_constraints : TypeContext → Res (Substitution × TypeContext)

/-- Out of fuel: every function answers `Res.fuelOut`. -/
def solverZero : SolverFns where
  unify _ _ _ := .fuelOut
  match_types _ _ _ := .fuelOut
  unify_many _ _ _ := .fuelOut
  bind_type_variable _ _ _ _ := .fuelOut
  get_kind _ _ := .fuelOut
  constrain_type_application _ _ _ := .fuelOut
  solve_constraints_with_subst _ _ _ := .fuelOut
  solve_constraints _ := .fuelOut

/-- `TypeContext::unify` (lines 518-570), arms in source order: structural
equality, the `NoKind` wildcards, same-name constructors (unify kinds),
schemes (instantiate and retry; the right-scheme arm swaps the sides),
variables (bind on either side), `TApply` (kind constraints first, then the
components), otherwise `UnificationError`. -/
def unifyF (prev : SolverFns) (left right : Ty) (ctx : TypeContext) :
    Res (Substitution × TypeContext) :=
  if left = right then .ok ([], ctx)
  else
    match left, right with
    | .NoKind, _ => .ok ([], ctx)
    | _, .NoKind => .ok ([], ctx)
    | .Constructor name_left kind_left, .Constructor name_right kind_right =>
      if name_right = name_left then prev.unify kind_left kind_right ctx
      else .err (TypeError.UnificationError (.Constructor name_left kind_left)
        (.Constructor name_right kind_right))
    | .Scheme vs t, other =>
      let (instantiated, ctx') := instantiate (.Scheme vs t) ctx
      prev.unify instantiated other ctx'
    | other, .Scheme vs t =>
      let (instantiated, ctx') := instantiate (.Scheme vs t) ctx
      prev.unify instantiated other ctx'
    | .Variable var_name var_kind, right' =>
      prev.bind_type_variable var_name (some var_kind) right' ctx
    | left', .Variable var_name var_kind =>
      prev.bind_type_variable var_name (some var_kind) left' ctx
    | .TApply fun_left input_left, .TApply fun_right input_right =>
      Res.bind (prev.constrain_type_application fun_left input_left ctx)
        fun (constraint_left, ctx1) =>
      Res.bind (prev.constrain_type_application fun_right input_right ctx1)
        fun (constraint_right, ctx2) =>
      prev.unify_many
        [constraint_left.1, constraint_right.1, fun_left, input_left]
        [constraint_left.2, constraint_right.2, fun_right, input_right] ctx2
    | l, r => .err (TypeError.UnificationError l r)

/-- `TypeContext::match_types` (lines 459-515): like `unify` but only a
left-hand variable is bound, the `Apply` case combines the sub-matches with
`safe_merge_substitution`, and failure is `MatchingError`. -/
def match_typesF (prev : SolverFns) (left right : Ty) (ctx : TypeContext) :
    Res (Substitution × TypeContext) :=
  if left = right then .ok ([], ctx)
  else
    match left, right with
    | .NoKind, _ => .ok ([], ctx)
    | _, .NoKind => .ok ([], ctx)
    | .Constructor name_left kind_left, .Constructor name_right kind_right =>
      if name_right = name_left then prev.match_types kind_left kind_right ctx
      else .err (TypeError.MatchingError (.Constructor name_left kind_left)
        (.Constructor name_right kind_right))
    | .Scheme vs t, other =>
      let (instantiated, ctx') := instantiate (.Scheme vs t) ctx
      prev.match_types instantiated other ctx'
    | other, .Scheme vs t =>
      let (instantiated, ctx') := instantiate (.Scheme vs t) ctx
      prev.match_types other instantiated ctx'
    | .Variable var_name var_kind, right' =>
      prev.bind_type_variable var_name (some var_kind) right' ctx
    | .TApply fun_left input_left, .TApply fun_right input_right =>
      Res.bind (prev.constrain_type_application fun_left input_left ctx)
        fun (constraint_left, ctx1) =>
      Res.bind (prev.constrain_type_application fun_right input_right ctx1)
        fun (constraint_right, ctx2) =>
      Res.bind (prev.unify_many
          [constraint_left.1, constraint_right.1]
          [constraint_left.2, constraint_right.2] ctx2)
        fun (subst2, ctx3) =>
      Res.bind (prev.match_types (fun_left.apply_substitution subst2)
          (fun_right.apply_substitution subst2) ctx3)
        fun (fun_subst, ctx4) =>
      Res.bind (prev.match_types (input_left.apply_substitution subst2)
          (input_right.apply_substitution subst2) ctx4)
        fun (input_subst, ctx5) =>
      match safe_merge_substitution fun_subst input_subst with
      | .error e => .err e
      | .ok s => .ok (merge_substitutions subst2 s, ctx5)
    | .ArrowKind, .ArrowKind => .ok ([], ctx)
    | l, r => .err (TypeError.MatchingError l r)

/-- `TypeContext::unify_many` (lines 573-593): unify head pairs, apply the
resulting substitution to both tails, recurse, and merge. -/
def unify_manyF (prev : SolverFns) (types1 types2 : List Ty) (ctx : TypeContext) :
    Res (Substitution × TypeContext) :=
  match types1, types2 with
  | [], [] => .ok ([], ctx)
  | left :: rest1, right :: rest2 =>
    Res.bind (prev.unify left right ctx) fun (substitution, ctx1) =>
    Res.bind (prev.unify_many
        (rest1.map (fun t => t.apply_substitution substitution))
        (rest2.map (fun t => t.apply_substitution substitution)) ctx1)
      fun (other_substitution, ctx2) =>
    .ok (merge_substitutions other_substitution substitution, ctx2)
  | t1, t2 => .err (TypeError.DifferentLengths t1 t2)

/-- `TypeContext::bind_type_variable` (lines 634-661). -/
def bind_type_variableF (prev : SolverFns) (var_name : String) (var_kind : Option Ty)
    (ty : Ty) (ctx : TypeContext) : Res (Substitution × TypeContext) :=
  let otherCase : Res (Substitution × TypeContext) :=
    if ty.is_recursive var_name then .err (TypeError.RecursiveType var_name ty)
    else
      match var_kind with
      | none => .ok (supdate [] var_name ty, ctx)
      | some vk =>
        Res.bind (prev.get_kind ty ctx) fun (k_other, ctx1) =>
        Res.bind (prev.unify k_other vk ctx1) fun (subst, ctx2) =>
        .ok (supdate subst var_name (ty.apply_substitution subst), ctx2)
  match ty with
  | .Variable other_name other_kind =>
    if other_name = var_name then
      match var_kind with
      | none => .ok (supdate [] var_name (.Variable other_name other_kind), ctx)
      | some kind => prev.unify other_kind kind ctx
    else otherCase
  | _ => otherCase

/-- `TypeContext::get_kind` (lines 596-626).  The final Rust arm is
`panic!("Cannot get kind of type {}")`; it is modelled by `Res.panicked`. -/
def get_kindF (prev : SolverFns) (ty : Ty) (ctx : TypeContext) : Res (Ty × TypeContext) :=
  if ty.is_scheme then
    let (instantiated, ctx') := instantiate ty ctx
    prev.get_kind instantiated ctx'
  else
    match ty with
    | .Constructor _ kind => .ok (kind, ctx)
    | .Variable _ kind => .ok (kind, ctx)
    | .ArrowKind =>
      let k := Ty.NoKind
      .ok ((Ty.create_lambda k (Ty.create_lambda k k)).generalize ctx, ctx)
    | .TApply f input =>
      if f = Ty.ArrowKind then .ok (Ty.NoKind, ctx)
      else
        let (k_ret, ctx1) := fresh Ty.NoKind ctx
        Res.bind (prev.get_kind input ctx1) fun (k_input, ctx2) =>
        Res.bind (prev.get_kind f ctx2) fun (k_fun, ctx3) =>
        .ok (k_ret, should_unify k_fun (Ty.create_lambda k_input k_ret) ctx3)
    | .NoKind => .ok (Ty.NoKind, ctx)
    | _ => .panicked

/-- `TypeContext::constrain_type_application` (lines 450-456). -/
def constrain_type_applicationF (prev : SolverFns) (func input : Ty) (ctx : TypeContext) :
    Res ((Ty × Ty) × TypeContext) :=
  let (k_ret, ctx1) := fresh Ty.NoKind ctx
  Res.bind (prev.get_kind func ctx1) fun (k_fun, ctx2) =>
  Res.bind (prev.get_kind input ctx2) fun (k_input, ctx3) =>
  .ok ((k_fun, Ty.create_lambda k_input k_ret), ctx3)

/-- `TypeContext::solve_constraints_with_subst` (lines 315-339). -/
def solve_constraints_with_substF (prev : SolverFns) (constraints_ : List TypeConstraint)
    (substitution : Substitution) (ctx : TypeContext) : Res (Substitution × TypeContext) :=
  match constraints_ with
  | [] => .ok (substitution, ctx)
  | constraint :: rest =>
    Res.bind
      (match constraint with
       | .Unify l r => prev.unify (kind_unkinded l) (kind_unkinded r) ctx
       | .Match l r => prev.match_types (kind_unkinded l) (kind_unkinded r) ctx)
      fun (s, ctx1) =>
    let new_subst := merge_substitutions s substitution
    prev.solve_constraints_with_subst
      (rest.map (fun c => c.apply_substitution new_subst)) new_subst ctx1

/-- `TypeContext::solve_constraints` (lines 341-357): drain the constraint
list, and if discharging it produced new constraints, solve those too and
merge the substitutions as `merge_substitutions(subst2, subst)`. -/
def solve_constraintsF (prev : SolverFns) (ctx : TypeContext) :
    Res (Substitution × TypeContext) :=
  let initial_constraints := ctx.constraints
  let ctx0 := { ctx with constraints := [] }
  Res.bind (prev.solve_constraints_with_subst initial_constraints [] ctx0)
    fun (subst, ctx1) =>
  if ctx1.constraints.length > 0 then
    let ctx2 := { ctx1 with
      constraints := ctx1.constraints.map (fun c => c.apply_substitution subst) }
    Res.bind (prev.solve_constraints ctx2) fun (subst2, ctx3) =>
    .ok (merge_substitutions subst2 subst, ctx3)
  else .ok (subst, ctx1)

/-- One unfolding of every solver body. -/
def solverStep (prev : SolverFns) : SolverFns where
  unify := unifyF prev
  match_types := match_typesF prev
  unify_many := unify_manyF prev
  bind_type_variable := bind_type_variableF prev
  get_kind := get_kindF prev
  constrain_type_application := constrain_type_applicationF prev
  solve_constraints_with_subst := solve_constraints_with_substF prev
  solve_constraints := solve_constraintsF prev

/-- The solver at a given amount of fuel. -/
def solver (fuel : Nat) : SolverFns :=
  Nat.rec solverZero (fun _ prev => solverStep prev) fuel

def unify (fuel : Nat) (left right : Ty) (ctx : TypeContext) :
    Res (Substitution × TypeContext) :=
  (solver fuel).unify left right ctx

def match_types (fuel : Nat) (left right : Ty) (ctx : TypeContext) :
    Res (Substitution × TypeContext) :=
  (solver fuel).match_types left right ctx

def unify_many (fuel : Nat) (types1 types2 : List Ty) (ctx : TypeContext) :
    Res (Substitution × TypeContext) :=
  (solver fuel).unify_many types1 types2 ctx

def bind_type_variable (fuel : Nat) (var_name : String) (var_kind : Option Ty)
    (ty : Ty) (ctx : TypeContext) : Res (Substitution × TypeContext) :=
  (solver fuel).bind_type_variable var_name var_kind ty ctx

def get_kind (fuel : Nat) (ty : Ty) (ctx : TypeContext) : Res (Ty × TypeContext) :=
  (solver fuel).get_kind ty ctx

def constrain_type_application (fuel : Nat) (func input : Ty) (ctx : TypeContext) :
    Res ((Ty × Ty) × TypeContext) :=
  (solver fuel).constrain_type_application func input ctx

def solve_constraints_with_subst (fuel : Nat) (constraints_ : List TypeConstraint)
    (substitution : Substitution) (ctx : TypeContext) : Res (Substitution × TypeContext) :=
  (solver fuel).solve_constraints_with_subst constraints_ substitution ctx

def solve_constraints (fuel : Nat) (ctx : TypeContext) : Res (Substitution × TypeContext) :=
  (solver fuel).solve_constraints ctx

theorem solver_succ (fuel : Nat) : solver (fuel + 1) = solverStep (solver fuel) := rfl

theorem unify_succ (fuel : Nat) (l r : Ty) (ctx : TypeContext) :
    unify (fuel + 1) l r ctx = unifyF (solver fuel) l r ctx := rfl

theorem match_types_succ (fuel : Nat) (l r : Ty) (ctx : TypeContext) :
    match_types (fuel + 1) l r ctx = match_typesF (solver fuel) l r ctx := rfl

theorem bind_type_variable_succ (fuel : Nat) (v : String) (k : Option Ty) (t : Ty)
    (ctx : TypeContext) :
    bind_type_variable (fuel + 1) v k t ctx = bind_type_variableF (solver fuel) v k t ctx := rfl

theorem get_kind_succ (fuel : Nat) (t : Ty) (ctx : TypeContext) :
    get_kind (fuel + 1) t ctx = get_kindF (solver fuel) t ctx := rfl

theorem solver_unify (fuel : Nat) : (solver fuel).unify = unify fuel := rfl

theorem solver_match_types (fuel : Nat) : (solver fuel).match_types = match_types fuel := rfl

theorem solver_unify_many (fuel : Nat) : (solver fuel).unify_many = unify_many fuel := rfl

theorem solver_bind_type_variable (fuel : Nat) :
    (solver fuel).bind_type_variable = bind_type_variable fuel := rfl

theorem solver_get_kind (fuel : Nat) : (solver fuel).get_kind = get_kind fuel := rfl

theorem solver_constrain (fuel : Nat) :
    (solver fuel).constrain_type_application = constrain_type_application fuel := rfl

theorem solver_solve_with_subst (fuel : Nat) :
    (solver fuel).solve_constraints_with_subst = solve_constraints_with_subst fuel := rfl

theorem solver_solve (fuel : Nat) : (solver fuel).solve_constraints = solve_constraints fuel := rfl

/-- Modelled from the spec (section 6.1): `crate::parser::Ast` is consumed
by the checker but its source is not under `src/`.  The float payload is
modelled as an integer code; inference never inspects literal payloads. -/
inductive Ast where
  | FloatLiteral (f : Int)
  | StringLiteral (s : String)
  | Variable (name : String)
  | Annotation (annotated : Ast) (ann : Ty)
  | If (condition : Ast) (right : Ast) (left : Ast)
  | FunctionCall (function : Ast) (argument : Ast)
  | Lambda (argument : String) (body : Ast)
  | Let (name : String) (value : Ast) (body : Ast)
  deriving DecidableEq

/-- `TypeContext::infer` (lines 385-443).  The two `infer_with` call sites
(`Lambda`, `Let`) are inlined so that the recursion is structural on the
AST: enter a closure extending the environment, infer, and `sync` the final
child context back into the parent. -/
def infer (fuel : Nat) : Ast → TypeContext → Res (Ty × TypeContext)
  | .FloatLiteral _, ctx => .ok (Ty.number, ctx)
  | .StringLiteral _, ctx => .ok (Ty.string, ctx)
  | Ast.Annotation annotated ann, ctx =>
    Res.bind (infer fuel annotated ctx) fun (inferred, ctx1) =>
    .ok (inferred, should_match inferred ann ctx1)
  | .If condition right left, ctx =>
    Res.bind (infer fuel condition ctx) fun (type_condition, ctx1) =>
    Res.bind (infer fuel right ctx1) fun (type_right, ctx2) =>
    Res.bind (infer fuel left ctx2) fun (type_left, ctx3) =>
    let ctx4 := should_unify type_condition Ty.boolean ctx3
    let ctx5 := should_unify type_left type_right ctx4
    .ok (type_right, ctx5)
  | .Variable name, ctx =>
    match alookup ctx.environment name with
    | some result =>
      let (t, ctx') := instantiate result ctx
      .ok (t, ctx')
    | none => .err (TypeError.NotInScope name)
  | .FunctionCall function argument, ctx =>
    let (return_type, ctx1) := fresh Ty.NoKind ctx
    Res.bind (infer fuel function ctx1) fun (function_type, ctx2) =>
    Res.bind (infer fuel argument ctx2) fun (argument_type, ctx3) =>
    .ok (return_type,
      should_unify function_type (Ty.create_lambda argument_type return_type) ctx3)
  | .Lambda argument body, ctx =>
    let (arg_type, ctx1) := fresh Ty.NoKind ctx
    let new_ctx := create_closure argument arg_type ctx1
    match infer fuel body new_ctx with
    | .ok (return_type, final_ctx) =>
      .ok (Ty.create_lambda arg_type return_type, sync ctx1 final_ctx)
    | .err e => .err e
    | .fuelOut => .fuelOut
    | .panicked => .panicked
  | .Let name value body, ctx =>
    match infer fuel value { ctx with constraints := [] } with
    | .ok (value_type, vctx1) =>
      match solve_constraints fuel vctx1 with
      | .ok (substitution, vctx2) =>
        let ctx1 := with_substitution ctx substitution
        let scheme := (value_type.apply_substitution substitution).generalize ctx1
        let ctx2 := sync ctx1 vctx2
        let new_ctx := create_closure name scheme ctx2
        match infer fuel body new_ctx with
        | .ok (t, final_ctx) => .ok (t, sync ctx2 final_ctx)
        | .err e => .err e
        | .fuelOut => .fuelOut
        | .panicked => .panicked
      | .err e => .err e
      | .fuelOut => .fuelOut
      | .panicked => .panicked
    | .err e => .err e
    | .fuelOut => .fuelOut
    | .panicked => .panicked

/-- `TypeContext::infer_with` (lines 369-376) as a standalone wrapper (its
two uses are inlined inside `infer`). -/
def infer_with (fuel : Nat) (name : String) (scheme : Ty) (ast : Ast) (ctx : TypeContext) : Res (Ty × TypeContext) :=
  let new_ctx := create_closure name scheme ctx
  match infer fuel ast new_ctx with
  | .ok (t, final_ctx) => .ok (t, sync ctx final_ctx)
  | .err e => .err e
  | .fuelOut => .fuelOut
  | .panicked => .panicked

/-- `get_type_of` (lines 804-812): infer, solve, apply, generalize. -/
def get_type_of (fuel : Nat) (expression : Ast) : Res Ty :=
  let context := TypeContext.new
  match infer fuel expression context with
  | .ok (resulting_type, ctx1) =>
    match solve_constraints fuel ctx1 with
    | .ok (subst, ctx2) => .ok ((resulting_type.apply_substitution subst).generalize ctx2)
    | .err e => .err e
    | .fuelOut => .fuelOut
    | .panicked => .panicked
  | .err e => .err e
  | .fuelOut => .fuelOut
  | .panicked => .panicked

/-- Types built only from `NoKind`-kinded variables and `*`-kinded
constructors — the atomic fragment on which `unify` is analysed. -/
inductive Atomic : Ty → Prop
  | var (n : String) : Atomic (Ty.Variable n Ty.NoKind)
  | con (n : String) : Atomic (Ty.Constructor n Ty.star)

/-- Every variable occurrence (at a substitutable position) carries kind
`NoKind`.  Substitution application ignores the kind stored in a variable
occurrence, so factoring statements are read on this class of types. -/
def Ty.plain : Ty → Bool
  | .Variable _ k => k == Ty.NoKind
  | .TApply f x => f.plain && x.plain
  | _ => true

end Steiner

namespace Steiner

/-! ### Helper lemmas about association lists and substitution application -/

theorem alookup_append (a b : List (String × Ty)) (k : String) :
    alookup (a ++ b) k =
      match alookup a k with
      | some v => some v
      | none => alookup b k := by
  induction a with
  | nil => rfl
  | cons hd tl ih =>
    obtain ⟨k', v'⟩ := hd
    by_cases h : k' = k
    · simp [alookup, h]
    · simp [alookup, h, ih]

theorem alookup_filter_of_none (s1 s2 : Substitution) (k : String)
    (h : alookup s1 k = none) :
    alookup (s2.filter (fun kv => (alookup s1 kv.1).isNone)) k = alookup s2 k := by
  induction s2 with
  | nil => rfl
  | cons hd tl ih =>
    obtain ⟨k', v'⟩ := hd
    by_cases hk : k' = k
    · subst hk
      simp [List.filter, h, alookup]
    · by_cases hp : (alookup s1 k').isNone
      · simp [List.filter, hp, alookup, hk, ih]
      · simp [List.filter, hp, alookup, hk, ih]

theorem alookup_sunion (s1 s2 : Substitution) (k : String) :
    alookup (sunion s1 s2) k =
      match alookup s1 k with
      | some v => some v
      | none => alookup s2 k := by
  unfold sunion
  rw [alookup_append]
  cases h : alookup s1 k with
  | some v => rfl
  | none => simp [alookup_filter_of_none s1 s2 k h]

theorem alookup_map_values (s : Substitution) (f : Ty → Ty) (k : String) :
    alookup (s.map (fun kv => (kv.1, f kv.2))) k = (alookup s k).map f := by
  induction s with
  | nil => rfl
  | cons hd tl ih =>
    obtain ⟨k', v'⟩ := hd
    by_cases h : k' = k
    · simp [alookup, h]
    · simp [alookup, h, ih]

theorem apply_from_string (s : Substitution) (k : String) :
    (Ty.from_string k).apply_substitution s =
      match alookup s k with
      | some v => v
      | none => Ty.from_string k := rfl

/-- Applying the empty substitution is the identity. -/
theorem apply_substitution_nil : (t : Ty) → t.apply_substitution [] = t
  | .Variable _ _ => rfl
  | .TApply f x => by
    simp [Ty.apply_substitution, apply_substitution_nil f, apply_substitution_nil x]
  | .Constructor _ _ => rfl
  | .NoKind => rfl
  | .ArrowKind => rfl
  | .Scheme _ _ => rfl

theorem mem_vunion_left (l1 l2 : List (String × Ty)) (p : String × Ty)
    (h : p ∈ l1) : p ∈ vunion l1 l2 := by
  unfold vunion; exact List.mem_append_left _ h

theorem mem_vunion_right (l1 l2 : List (String × Ty)) (p : String × Ty)
    (h : p ∈ l2) : p ∈ vunion l1 l2 := by
  unfold vunion
  by_cases h1 : p ∈ l1
  · exact List.mem_append_left _ h1
  · refine List.mem_append_right _ ?_
    refine List.mem_filter.mpr ⟨h, ?_⟩
    simpa using h1

/-- A substitution that binds no free variable of `t` leaves `t` unchanged. -/
theorem apply_substitution_not_free : (t : Ty) → (σ : Substitution) →
    (∀ p ∈ t.free_variables, alookup σ p.1 = none) → t.apply_substitution σ = t
  | .Variable n k, σ, h => by
    have hn := h (n, k) (by simp [Ty.free_variables])
    simp [Ty.apply_substitution, hn]
  | .TApply f x, σ, h => by
    have hf := apply_substitution_not_free f σ
      (fun p hp => h p (mem_vunion_left _ _ _ hp))
    have hx := apply_substitution_not_free x σ
      (fun p hp => h p (mem_vunion_right _ _ _ hp))
    simp [Ty.apply_substitution, hf, hx]
  | .Constructor _ _, _, _ => rfl
  | .NoKind, _, _ => rfl
  | .ArrowKind, _, _ => rfl
  | .Scheme _ _, _, _ => rfl

end Steiner

namespace Steiner

/-! ### C2: identity polymorphism -/

/-- C2: `get_type_of(λx. x)` returns the scheme `∀t0. t0 → t0`: the argument
type and result type are the very same fresh variable `t0`, and exactly one
quantifier is introduced. -/
theorem get_type_of_identity_scheme :
    get_type_of 100 (Ast.Lambda "x" (Ast.Variable "x")) =
      .ok (Ty.Scheme [("t0", Ty.NoKind)]
        (Ty.create_lambda (Ty.Variable "t0" Ty.NoKind) (Ty.Variable "t0" Ty.NoKind))) := by
  rfl

/-! ### C3: composition of substitutions -/

/-- C3 (counterexample): on a key bound in both maps,
`merge_substitutions(s1, s2)` keeps the binding coming from `s2` (with `s1`
applied to it), not the binding from `s1` as the claim states. -/
theorem merge_substitutions_conflict_keeps_s2 :
    alookup (merge_substitutions [("x", Ty.number)] [("x", Ty.string)]) "x" =
      some Ty.string ∧
    (Ty.string == Ty.number) = false := by
  constructor
  · rfl
  · rfl

/-- C3 (amended): `merge_substitutions(s1, s2)` maps every key of `s2` to its
right-hand side with `s1` applied — also on keys bound in both maps, so on a
conflict the (rewritten) binding of `s2` wins — and keys bound only in `s1`
keep their `s1` binding. -/
theorem merge_substitutions_lookup (s1 s2 : Substitution) (k : String) :
    alookup (merge_substitutions s1 s2) k =
      match alookup s2 k with
      | some v => some (v.apply_substitution s1)
      | none => alookup s1 k := by
  unfold merge_substitutions
  rw [alookup_sunion]
  have hm : alookup (Substitution.apply_substitution s2 s1) k =
      (alookup s2 k).map (fun v => v.apply_substitution s1) := by
    unfold Substitution.apply_substitution
    exact alookup_map_values s2 (fun v => v.apply_substitution s1) k
  rw [hm]
  cases alookup s2 k with
  | some v => rfl
  | none => rfl

/-! ### C4: literals -/

/-- C4 (counterexample): `get_type_of(FloatLiteral 0)` does not return the
bare type `Number`; it returns the trivial scheme `Scheme([], Number)`. -/
theorem get_type_of_float_not_bare_number :
    get_type_of 100 (Ast.FloatLiteral 0) = .ok (Ty.Scheme [] Ty.number) ∧
    (Ty.Scheme [] Ty.number == Ty.number) = false := by
  constructor
  · rfl
  · rfl

/-- C4 (amended): for every float literal `get_type_of` returns
`Scheme([], Number)` (which displays as `Number`), and for every string
literal it returns `Scheme([], String)`. -/
theorem get_type_of_literals (f : Int) (s : String) :
    get_type_of 100 (Ast.FloatLiteral f) = .ok (Ty.Scheme [] Ty.number) ∧
    get_type_of 100 (Ast.StringLiteral s) = .ok (Ty.Scheme [] Ty.string) := by
  constructor
  · rfl
  · rfl

/-! ### C8: idempotence of substitution application -/

/-- C8 (counterexample): substitution application is not idempotent for every
substitution: with `σ = {a ↦ b, b ↦ Number}`, applying `σ` to the variable
`a` once gives `b` but applying it twice gives `Number`. -/
theorem apply_substitution_not_idempotent :
    ((Ty.from_string "a").apply_substitution
        [("a", Ty.Variable "b" Ty.NoKind), ("b", Ty.number)]).apply_substitution
        [("a", Ty.Variable "b" Ty.NoKind), ("b", Ty.number)] = Ty.number ∧
    (Ty.from_string "a").apply_substitution
        [("a", Ty.Variable "b" Ty.NoKind), ("b", Ty.number)] =
      Ty.Variable "b" Ty.NoKind ∧
    (Ty.number == Ty.Variable "b" Ty.NoKind) = false := by
  refine ⟨rfl, rfl, rfl⟩

/-- C8 (amended): substitution application is idempotent for substitutions
whose bindings mention no variable of their own domain: if no free variable
of any looked-up binding is itself bound by `σ`, then
`apply(apply(t, σ), σ) = apply(t, σ)` for every type `t`. -/
theorem apply_substitution_idempotent (σ : Substitution)
    (hσ : ∀ k v, alookup σ k = some v → ∀ p ∈ v.free_variables, alookup σ p.1 = none) :
    ∀ t : Ty, (t.apply_substitution σ).apply_substitution σ = t.apply_substitution σ
  | .Variable n k => by
    cases h : alookup σ n with
    | some v =>
      simp [Ty.apply_substitution, h]
      exact apply_substitution_not_free v σ (hσ n v h)
    | none => simp [Ty.apply_substitution, h]
  | .TApply f x => by
    simp [Ty.apply_substitution, apply_substitution_idempotent σ hσ f,
      apply_substitution_idempotent σ hσ x]
  | .Constructor _ _ => rfl
  | .NoKind => rfl
  | .ArrowKind => rfl
  | .Scheme _ _ => rfl

/-- C8 witness: the amended idempotence theorem applied at
`σ = {a ↦ Number}` and `t = a`. -/
theorem apply_substitution_idempotent_witness :
    ((Ty.from_string "a").apply_substitution [("a", Ty.number)]).apply_substitution
        [("a", Ty.number)] =
      (Ty.from_string "a").apply_substitution [("a", Ty.number)] :=
  apply_substitution_idempotent [("a", Ty.number)]
    (by
      intro k v h p hp
      by_cases hk : "a" = k
      · subst hk
        simp [alookup] at h
        subst h
        simp [Ty.number, Ty.constant, Ty.free_variables] at hp
      · simp [alookup, hk] at h)
    (Ty.from_string "a")

end Steiner

namespace Steiner

/-! ### C9: results of get_type_of are always schemes -/

/-- C9: whenever `get_type_of` succeeds its result is a `Scheme` (possibly
with an empty quantifier list) — `generalize` always wraps via `to_scheme`;
in particular the literal expressions yield `Scheme([], Number)` and
`Scheme([], String)` rather than the bare constructor types. -/
theorem get_type_of_always_scheme :
    (∀ fuel e t, get_type_of fuel e = .ok t → ∃ vs body, t = Ty.Scheme vs body) ∧
    (get_type_of 10 (Ast.FloatLiteral 0) = .ok (Ty.Scheme [] Ty.number)) ∧
    (get_type_of 10 (Ast.StringLiteral "")= .ok (Ty.Scheme [] Ty.string)) := by
  refine ⟨?_, rfl, rfl⟩
  intro fuel e t h
  simp only [get_type_of] at h
  split at h
  · split at h
    · injection h with h'
      exact ⟨_, _, h'.symm⟩
    · exact Res.noConfusion h
    · exact Res.noConfusion h
    · exact Res.noConfusion h
  · exact Res.noConfusion h
  · exact Res.noConfusion h
  · exact Res.noConfusion h

/-- C9 witness: the scheme-shape theorem applied to `FloatLiteral 0`. -/
theorem get_type_of_always_scheme_witness :
    ∃ vs body, Ty.Scheme ([] : List (String × Ty)) Ty.number = Ty.Scheme vs body :=
  get_type_of_always_scheme.1 10 (Ast.FloatLiteral 0) (Ty.Scheme [] Ty.number) rfl

/-! ### C5: the occurs check -/

/-- C5: `get_type_of(λx. x x)` fails with `RecursiveType` — the generated
constraint asks to bind `t0` to `t0 → t1`, and `bind_type_variable` rejects
binding a name `v` to any type `t` that is not a variable named `v` but has
`v` among its free variables. -/
theorem self_application_recursive_type :
    (get_type_of 100 (Ast.Lambda "x" (Ast.FunctionCall (Ast.Variable "x") (Ast.Variable "x"))) =
      .err (TypeError.RecursiveType "t0"
        (Ty.create_lambda (Ty.Variable "t0" Ty.NoKind) (Ty.Variable "t1" Ty.NoKind)))) ∧
    (∀ fuel v k t ctx, (∀ kk, t ≠ Ty.Variable v kk) → t.is_recursive v = true →
      bind_type_variable (fuel + 1) v k t ctx = .err (TypeError.RecursiveType v t)) := by
  constructor
  · rfl
  · intro fuel v k t ctx hvar hrec
    cases t with
    | Variable n kk =>
      by_cases hn : n = v
      · subst hn
        exact absurd rfl (hvar kk)
      · simp [bind_type_variable_succ, bind_type_variableF, hn, hrec]
    | Constructor n kk => simp [bind_type_variable_succ, bind_type_variableF, hrec]
    | TApply f x => simp [bind_type_variable_succ, bind_type_variableF, hrec]
    | NoKind => simp [bind_type_variable_succ, bind_type_variableF, hrec]
    | ArrowKind => simp [bind_type_variable_succ, bind_type_variableF, hrec]
    | Scheme vs body => simp [bind_type_variable_succ, bind_type_variableF, hrec]

/-- C5 witness: binding `a` to `a → a` is rejected by the occurs check. -/
theorem self_application_recursive_type_witness :
    bind_type_variable 1 "a" none
        (Ty.create_lambda (Ty.from_string "a") (Ty.from_string "a")) TypeContext.new =
      .err (TypeError.RecursiveType "a"
        (Ty.create_lambda (Ty.from_string "a") (Ty.from_string "a"))) :=
  self_application_recursive_type.2 0 "a" none
    (Ty.create_lambda (Ty.from_string "a") (Ty.from_string "a")) TypeContext.new
    (fun kk h => Ty.noConfusion h) rfl

end Steiner

namespace Steiner

/-! ### C6: matching is one-sided -/

/-- C6: `match_types` binds variables only on the left: when the right side
is a variable, the left side is not a variable, and the equality / `NoKind`
/ `Scheme` cases do not apply, no binding happens — the call falls through
to the error case.  Consequently annotating `λx. x` with `Number → Number`
succeeds (the rigid annotation is matched, not unified). -/
theorem match_types_one_sided :
    (∀ fuel l n k ctx, l.is_scheme = false → (∀ m kk, l ≠ Ty.Variable m kk) →
        l ≠ Ty.NoKind →
      match_types (fuel + 1) l (Ty.Variable n k) ctx =
        .err (TypeError.MatchingError l (Ty.Variable n k))) ∧
    (get_type_of 100 ( Ast.Annotation (Ast.Lambda "x" (Ast.Variable "x"))
        (Ty.create_lambda Ty.number Ty.number)) =
      .ok (Ty.Scheme [] (Ty.create_lambda Ty.number Ty.number))) := by
  constructor
  · intro fuel l n k ctx hsch hvar hnk
    have hne : l ≠ Ty.Variable n k := hvar n k
    clear hne
    cases l with
    | Constructor a b => rfl
    | TApply a b => rfl
    | ArrowKind => rfl
    | NoKind => exact absurd rfl hnk
    | Variable a b => exact absurd rfl (hvar a b)
    | Scheme vs t => simp [Ty.is_scheme] at hsch
  · rfl

/-- C6 witness: matching the constructor `Number` against a right-hand
variable reports `MatchingError` instead of binding the variable. -/
theorem match_types_one_sided_witness :
    match_types 1 Ty.number (Ty.Variable "a" Ty.NoKind) TypeContext.new =
      .err (TypeError.MatchingError Ty.number (Ty.Variable "a" Ty.NoKind)) :=
  match_types_one_sided.1 0 Ty.number "a" Ty.NoKind TypeContext.new rfl
    (fun m kk h => Ty.noConfusion h) (fun h => Ty.noConfusion h)

/-! ### C7: safe composition -/

theorem mem_of_alookup_eq_some (s : List (String × Ty)) (k : String) (v : Ty)
    (h : alookup s k = some v) : (k, v) ∈ s := by
  induction s with
  | nil => simp [alookup] at h
  | cons hd tl ih =>
    obtain ⟨k', v'⟩ := hd
    by_cases hk : k' = k
    · subst hk
      simp [alookup] at h
      subst h
      exact List.mem_cons_self _ _
    · simp [alookup, hk] at h
      exact List.mem_cons_of_mem _ (ih h)

theorem alookup_isSome_of_mem (s : List (String × Ty)) (k : String) (v : Ty)
    (h : (k, v) ∈ s) : (alookup s k).isSome := by
  induction s with
  | nil => cases h
  | cons hd tl ih =>
    obtain ⟨k', v'⟩ := hd
    by_cases hk : k' = k
    · simp [alookup, hk]
    · rcases List.mem_cons.mp h with he | ht
      · rw [Prod.mk.injEq] at he
        exact absurd he.1.symm hk
      · simp only [alookup, if_neg hk]
        exact ih ht

/-- C7: `safe_merge_substitution(s1, s2)` reports `SubstitutionConflict` if
and only if some name is bound in both maps with bindings that normalise to
unequal types, and otherwise returns the union of `s1` and `s2`. -/
theorem safe_merge_substitution_conflict_iff (s1 s2 : Substitution) :
    ((∃ key t1 t2, safe_merge_substitution s1 s2 =
        .error (TypeError.SubstitutionConflict key t1 t2)) ↔
      (∃ k t1 t2, alookup s1 k = some t1 ∧ alookup s2 k = some t2 ∧ t1 ≠ t2)) ∧
    (∀ σ, safe_merge_substitution s1 s2 = .ok σ → σ = sunion s1 s2) := by
  constructor
  · constructor
    · rintro ⟨key, t1, t2, h⟩
      simp only [safe_merge_substitution] at h
      split at h
      case h_1 key0 hfind =>
        have hp := List.find?_some hfind
        have hmem := List.mem_of_find?_eq_some hfind
        obtain ⟨⟨k0, v0⟩, hk0mem, hk0eq⟩ := List.mem_map.mp hmem
        have hfil := List.mem_filter.mp hk0mem
        have hs1 : (alookup s1 k0).isSome := alookup_isSome_of_mem _ _ _ hfil.1
        obtain ⟨t1', ht1⟩ := Option.isSome_iff_exists.mp hs1
        have hs2 : (alookup s2 k0).isSome := by simpa using hfil.2
        obtain ⟨t2', ht2⟩ := Option.isSome_iff_exists.mp hs2
        refine ⟨k0, t1', t2', ht1, ht2, ?_⟩
        have e1 : (Ty.from_string key0).apply_substitution s1 = t1' := by
          rw [apply_from_string, ← hk0eq]
          simp [ht1]
        have e2 : (Ty.from_string key0).apply_substitution s2 = t2' := by
          rw [apply_from_string, ← hk0eq]
          simp [ht2]
        rw [e1, e2] at hp
        intro he
        rw [he] at hp
        simp at hp
      case h_2 hfind => exact Except.noConfusion h
    · rintro ⟨k, t1, t2, ht1, ht2, hne⟩
      simp only [safe_merge_substitution]
      cases hfind : ((sintersection s1 s2).map Prod.fst).find? (fun key =>
          !((Ty.from_string key).apply_substitution s1
              == (Ty.from_string key).apply_substitution s2)) with
      | some key0 => exact ⟨key0, _, _, rfl⟩
      | none =>
        exfalso
        have hmemk : k ∈ (sintersection s1 s2).map Prod.fst := by
          refine List.mem_map.mpr ⟨(k, t1), ?_, rfl⟩
          refine List.mem_filter.mpr ⟨mem_of_alookup_eq_some _ _ _ ht1, ?_⟩
          simp [ht2]
        have hall := List.find?_eq_none.mp hfind k hmemk
        have e1 : (Ty.from_string k).apply_substitution s1 = t1 := by
          rw [apply_from_string]
          simp [ht1]
        have e2 : (Ty.from_string k).apply_substitution s2 = t2 := by
          rw [apply_from_string]
          simp [ht2]
        rw [e1, e2] at hall
        simp at hall
        exact hne (by simpa using hall)
  · intro σ h
    simp only [safe_merge_substitution] at h
    split at h
    · exact Except.noConfusion h
    · injection h with h'
      exact h'.symm

/-- C7 witness: a genuine conflict on `x`, and a conflict-free union. -/
theorem safe_merge_substitution_conflict_iff_witness :
    (∃ key t1 t2, safe_merge_substitution [("x", Ty.number)] [("x", Ty.string)] =
      .error (TypeError.SubstitutionConflict key t1 t2)) ∧
    [("x", Ty.number), ("y", Ty.string)] =
      sunion [("x", Ty.number)] [("y", Ty.string)] := by
  constructor
  · exact (safe_merge_substitution_conflict_iff _ _).1.mpr
      ⟨"x", Ty.number, Ty.string, rfl, rfl, by decide⟩
  · exact (safe_merge_substitution_conflict_iff _ _).2 _ rfl

end Steiner

namespace Steiner

/-! ### C10: totality of get_kind -/

/-- C10: `get_kind` handles every `Type` constructor before the final panic
arm: for every type, context and amount of fuel the result is an ordinary
value (or the fuel ran out) — never the `panic!` branch, and never an
error. -/
theorem get_kind_never_panics :
    ∀ fuel ty ctx, (∃ k ctx', get_kind fuel ty ctx = .ok (k, ctx')) ∨
      get_kind fuel ty ctx = .fuelOut := by
  intro fuel
  induction fuel with
  | zero => intro ty ctx; right; rfl
  | succ f ih =>
    intro ty ctx
    rw [get_kind_succ]
    cases ty with
    | Scheme vs t =>
      have hred : get_kindF (solver f) (Ty.Scheme vs t) ctx =
          get_kind f (instantiate (Ty.Scheme vs t) ctx).1
            (instantiate (Ty.Scheme vs t) ctx).2 := rfl
      rw [hred]
      exact ih _ _
    | Constructor n k => exact Or.inl ⟨k, ctx, rfl⟩
    | Variable n k => exact Or.inl ⟨k, ctx, rfl⟩
    | ArrowKind => exact Or.inl ⟨_, ctx, rfl⟩
    | NoKind => exact Or.inl ⟨Ty.NoKind, ctx, rfl⟩
    | TApply f' x =>
      by_cases hf : f' = Ty.ArrowKind
      · subst hf
        exact Or.inl ⟨Ty.NoKind, ctx, rfl⟩
      · have hred : get_kindF (solver f) (Ty.TApply f' x) ctx =
            Res.bind (get_kind f x (fresh Ty.NoKind ctx).2) fun p1 =>
            Res.bind (get_kind f f' p1.2) fun p2 =>
            Res.ok ((fresh Ty.NoKind ctx).1,
              should_unify p2.1 (Ty.create_lambda p1.1 (fresh Ty.NoKind ctx).1) p2.2) := by
          show (if f' = Ty.ArrowKind then Res.ok (Ty.NoKind, ctx) else _) = _
          rw [if_neg hf]
          rfl
        rw [hred]
        rcases ih x (fresh Ty.NoKind ctx).2 with ⟨k1, c1, h1⟩ | h1
        · rcases ih f' c1 with ⟨k2, c2, h2⟩ | h2
          · refine Or.inl ⟨(fresh Ty.NoKind ctx).1,
              should_unify k2 (Ty.create_lambda k1 (fresh Ty.NoKind ctx).1) c2, ?_⟩
            rw [h1]
            show Res.bind (get_kind f f' c1) _ = _
            rw [h2]
            rfl
          · right
            rw [h1]
            show Res.bind (get_kind f f' c1) _ = _
            rw [h2]
            rfl
        · right
          rw [h1]
          rfl

end Steiner

namespace Steiner

/-! ### C1: unify on the atomic fragment -/

theorem unify_zero (l r : Ty) (ctx : TypeContext) : unify 0 l r ctx = .fuelOut := rfl

/-- `unify` on two equal sides answers the empty substitution at once. -/
theorem unify_refl_eval (fuel : Nat) (l : Ty) (ctx : TypeContext) :
    unify (fuel + 1) l l ctx = .ok ([], ctx) := by
  rw [unify_succ]
  unfold unifyF
  rw [if_pos rfl]

/-- Full evaluation of `unify` on two distinct kindless variables. -/
theorem unify_var_var_all (fuel : Nat) (a b : String) (ctx : TypeContext) (hab : a ≠ b) :
    unify fuel (Ty.Variable a Ty.NoKind) (Ty.Variable b Ty.NoKind) ctx = .fuelOut ∨
    unify fuel (Ty.Variable a Ty.NoKind) (Ty.Variable b Ty.NoKind) ctx =
      .ok ([(a, Ty.Variable b Ty.NoKind)], ctx) := by
  have hlr : Ty.Variable a Ty.NoKind ≠ Ty.Variable b Ty.NoKind := by simp [hab]
  have hba : b ≠ a := fun e => hab e.symm
  have hrec : (Ty.Variable b Ty.NoKind).is_recursive a = false := by
    have hb : (b == a) = false := by simp [hba]
    simp [Ty.is_recursive, Ty.free_variables, List.find?, hb]
  match fuel with
  | 0 => exact Or.inl rfl
  | 1 =>
    left
    rw [unify_succ]
    simp only [unifyF, if_neg hlr]
    rfl
  | 2 =>
    left
    rw [unify_succ]
    simp only [unifyF, if_neg hlr]
    rw [solver_bind_type_variable, bind_type_variable_succ]
    simp only [bind_type_variableF, if_neg hba, hrec]
    rfl
  | (g + 3) =>
    right
    rw [unify_succ]
    simp only [unifyF, if_neg hlr]
    rw [solver_bind_type_variable, bind_type_variable_succ]
    simp only [bind_type_variableF, if_neg hba, hrec]
    rfl

/-- Full evaluation of `unify` on a kindless variable against a `*`-kinded
constructor (either order), and on two distinct constructors. -/
theorem unify_var_con_all (fuel : Nat) (a C : String) (ctx : TypeContext) :
    unify fuel (Ty.Variable a Ty.NoKind) (Ty.Constructor C Ty.star) ctx = .fuelOut ∨
    unify fuel (Ty.Variable a Ty.NoKind) (Ty.Constructor C Ty.star) ctx =
      .ok ([(a, Ty.Constructor C Ty.star)], ctx) := by
  match fuel with
  | 0 => exact Or.inl rfl
  | 1 => exact Or.inl rfl
  | 2 => exact Or.inl rfl
  | (g + 3) => exact Or.inr rfl

theorem unify_con_var_all (fuel : Nat) (C b : String) (ctx : TypeContext) :
    unify fuel (Ty.Constructor C Ty.star) (Ty.Variable b Ty.NoKind) ctx = .fuelOut ∨
    unify fuel (Ty.Constructor C Ty.star) (Ty.Variable b Ty.NoKind) ctx =
      .ok ([(b, Ty.Constructor C Ty.star)], ctx) := by
  match fuel with
  | 0 => exact Or.inl rfl
  | 1 => exact Or.inl rfl
  | 2 => exact Or.inl rfl
  | (g + 3) => exact Or.inr rfl

theorem unify_con_con_ne (fuel : Nat) (C D : String) (ctx : TypeContext) (hCD : C ≠ D) :
    unify (fuel + 1) (Ty.Constructor C Ty.star) (Ty.Constructor D Ty.star) ctx =
      .err (TypeError.UnificationError (Ty.Constructor C Ty.star)
        (Ty.Constructor D Ty.star)) := by
  have hlr : Ty.Constructor C Ty.star ≠ Ty.Constructor D Ty.star := by simp [hCD]
  have hDC : D ≠ C := fun e => hCD e.symm
  rw [unify_succ]
  simp only [unifyF, if_neg hlr, if_neg hDC]

/-- Factoring through a one-binding substitution: if `τ` already equates the
variable `a` with `u`, then applying `{a ↦ u}` before `τ` changes nothing on
types whose variable occurrences are `NoKind`-kinded. -/
theorem apply_single_factor (a : String) (u : Ty) (τ : Substitution)
    (hu : (Ty.Variable a Ty.NoKind).apply_substitution τ = u.apply_substitution τ) :
    ∀ t : Ty, t.plain = true →
      (t.apply_substitution [(a, u)]).apply_substitution τ = t.apply_substitution τ
  | .Variable n k, hp => by
    have hk : k = Ty.NoKind := by simpa [Ty.plain] using hp
    subst hk
    by_cases hn : a = n
    · subst hn
      have e : (Ty.Variable a Ty.NoKind).apply_substitution [(a, u)] = u := by
        simp [Ty.apply_substitution, alookup]
      rw [e]
      exact hu.symm
    · have e : (Ty.Variable n Ty.NoKind).apply_substitution [(a, u)] =
          Ty.Variable n Ty.NoKind := by
        simp [Ty.apply_substitution, alookup, hn]
      rw [e]
  | .TApply f x, hp => by
    have hp' : f.plain = true ∧ x.plain = true := by
      simpa [Ty.plain, Bool.and_eq_true] using hp
    show Ty.TApply _ _ = Ty.TApply _ _
    rw [apply_single_factor a u τ hu f hp'.1, apply_single_factor a u τ hu x hp'.2]
  | .Constructor _ _, _ => rfl
  | .NoKind, _ => rfl
  | .ArrowKind, _ => rfl
  | .Scheme _ _, _ => rfl

end Steiner

namespace Steiner

/-- C1 (amended): on the atomic fragment (kindless variables and `*`-kinded
constructors) a successful `unify(l, r) = σ` is a most general unifier:
`apply(l, σ) = apply(r, σ)`, and every substitution `τ` that equates `l`
and `r` factors through `σ` (with `δ = τ`) on all types whose variable
occurrences are `NoKind`-kinded. -/
theorem unify_atomic_most_general (fuel : Nat) (l r : Ty) (ctx : TypeContext)
    (σ : Substitution) (ctx1 : TypeContext) (hl : Atomic l) (hr : Atomic r)
    (h : unify fuel l r ctx = .ok (σ, ctx1)) :
    l.apply_substitution σ = r.apply_substitution σ ∧
    ∀ τ : Substitution, l.apply_substitution τ = r.apply_substitution τ →
      ∀ t : Ty, t.plain = true →
        (t.apply_substitution σ).apply_substitution τ = t.apply_substitution τ := by
  cases hl with
  | var a =>
    cases hr with
    | var b =>
      by_cases hab : a = b
      · subst hab
        have hσ : σ = [] := by
          cases fuel with
          | zero => rw [unify_zero] at h; exact Res.noConfusion h
          | succ f =>
            rw [unify_refl_eval] at h
            injection h with h'
            exact ((Prod.mk.injEq _ _ _ _).mp h'.symm).1
        subst hσ
        refine ⟨rfl, ?_⟩
        intro τ hτ t ht
        rw [apply_substitution_nil]
      · have hσ : σ = [(a, Ty.Variable b Ty.NoKind)] := by
          rcases unify_var_var_all fuel a b ctx hab with he | he
          · rw [he] at h; exact Res.noConfusion h
          · rw [he] at h
            injection h with h'
            exact ((Prod.mk.injEq _ _ _ _).mp h'.symm).1
        subst hσ
        constructor
        · simp [Ty.apply_substitution, alookup, hab]
        · intro τ hτ t ht
          exact apply_single_factor a (Ty.Variable b Ty.NoKind) τ hτ t ht
    | con C =>
      have hσ : σ = [(a, Ty.Constructor C Ty.star)] := by
        rcases unify_var_con_all fuel a C ctx with he | he
        · rw [he] at h; exact Res.noConfusion h
        · rw [he] at h
          injection h with h'
          exact ((Prod.mk.injEq _ _ _ _).mp h'.symm).1
      subst hσ
      constructor
      · simp [Ty.apply_substitution, alookup]
      · intro τ hτ t ht
        exact apply_single_factor a (Ty.Constructor C Ty.star) τ hτ t ht
  | con C =>
    cases hr with
    | var b =>
      have hσ : σ = [(b, Ty.Constructor C Ty.star)] := by
        rcases unify_con_var_all fuel C b ctx with he | he
        · rw [he] at h; exact Res.noConfusion h
        · rw [he] at h
          injection h with h'
          exact ((Prod.mk.injEq _ _ _ _).mp h'.symm).1
      subst hσ
      constructor
      · simp [Ty.apply_substitution, alookup]
      · intro τ hτ t ht
        exact (apply_single_factor b (Ty.Constructor C Ty.star) τ hτ.symm t ht)
    | con D =>
      by_cases hCD : C = D
      · subst hCD
        have hσ : σ = [] := by
          cases fuel with
          | zero => rw [unify_zero] at h; exact Res.noConfusion h
          | succ f =>
            rw [unify_refl_eval] at h
            injection h with h'
            exact ((Prod.mk.injEq _ _ _ _).mp h'.symm).1
        subst hσ
        refine ⟨rfl, ?_⟩
        intro τ hτ t ht
        rw [apply_substitution_nil]
      · exfalso
        cases fuel with
        | zero => rw [unify_zero] at h; exact Res.noConfusion h
        | succ f =>
          rw [unify_con_con_ne f C D ctx hCD] at h
          exact Res.noConfusion h

/-- C1 witness: the most-general-unifier theorem applied to
`unify(a, Number) = {a ↦ Number}`. -/
theorem unify_atomic_most_general_witness :
    (Ty.Variable "a" Ty.NoKind).apply_substitution [("a", Ty.number)] =
      Ty.number.apply_substitution [("a", Ty.number)] ∧
    ∀ τ : Substitution,
      (Ty.Variable "a" Ty.NoKind).apply_substitution τ = Ty.number.apply_substitution τ →
      ∀ t : Ty, t.plain = true →
        (t.apply_substitution [("a", Ty.number)]).apply_substitution τ =
          t.apply_substitution τ :=
  unify_atomic_most_general 5 (Ty.Variable "a" Ty.NoKind) Ty.number TypeContext.new
    [("a", Ty.number)] TypeContext.new (Atomic.var "a") (Atomic.con "Number") rfl

/-- C1 (counterexample): the claim fails outside the atomic fragment.
First, `unify(NoKind, Number)` succeeds with the empty substitution although
no substitution at all makes the two sides structurally equal (`NoKind` is a
wildcard), so no most general such substitution exists.  Second, on arrow
types a successful `unify(a → b, c → d)` returns a substitution that also
binds the auxiliary fresh kind variables `t2`, `t3` to `NoKind → NoKind`;
the plain unifier `τ = {a ↦ c, b ↦ d}` cannot factor through it, because
every `δ` sends `apply(t2, σ)` to `NoKind → NoKind` while `τ` keeps the
variable `t2`, so the returned substitution is not most general. -/
theorem unify_succeeds_without_unifier :
    unify 5 Ty.NoKind Ty.number TypeContext.new = .ok ([], TypeContext.new) ∧
    (∀ σ : Substitution,
      (Ty.NoKind.apply_substitution σ == Ty.number.apply_substitution σ) = false) ∧
    ((match unify 50 (Ty.create_lambda (Ty.from_string "a") (Ty.from_string "b"))
         (Ty.create_lambda (Ty.from_string "c") (Ty.from_string "d"))
         TypeContext.new with
      | .ok p => p.1
      | _ => []) =
      [("t2", Ty.create_lambda Ty.NoKind Ty.NoKind),
       ("t3", Ty.create_lambda Ty.NoKind Ty.NoKind),
       ("a", Ty.from_string "c"), ("b", Ty.from_string "d")]) ∧
    ((Ty.create_lambda (Ty.from_string "a") (Ty.from_string "b")).apply_substitution
        [("a", Ty.from_string "c"), ("b", Ty.from_string "d")] =
      (Ty.create_lambda (Ty.from_string "c") (Ty.from_string "d")).apply_substitution
        [("a", Ty.from_string "c"), ("b", Ty.from_string "d")]) ∧
    (∀ δ : Substitution,
      ((Ty.from_string "t2").apply_substitution
          [("t2", Ty.create_lambda Ty.NoKind Ty.NoKind),
           ("t3", Ty.create_lambda Ty.NoKind Ty.NoKind),
           ("a", Ty.from_string "c"), ("b", Ty.from_string "d")]).apply_substitution δ =
        Ty.create_lambda Ty.NoKind Ty.NoKind) ∧
    ((Ty.from_string "t2").apply_substitution
        [("a", Ty.from_string "c"), ("b", Ty.from_string "d")] = Ty.from_string "t2") := by
  refine ⟨rfl, fun σ => rfl, rfl, rfl, fun δ => rfl, rfl⟩

end Steiner
